import Mathlib

/-!
Verification of the comment-sentiment prediction pipeline of the
`commit-analysis` backend (`src/python/main.py`).

The pipeline is `predict_comments` (main.py lines 126-184) together with its
HTTP caller `analyze_comments_batch` (lines 187-197).  We give a shallow
embedding of the relevant Python code:

* the three process-wide artifacts `VECTORIZER`, `MODEL`, `LABEL_ENCODER`
  become the fields of an `Env` record, each an `Option`;
* the `transform` of the vectorizer and the `predict` of the model are opaque
  functions that may raise, embedded as `Except String`-returning fields;
* the `predict_proba` method of the model is embedded as a function returning
  `Option (List (List ℚ))`: `none` models both "method absent" and "the
  call raised", exactly the merge performed by the `try/except` around
  `MODEL.predict_proba(X)` in the source;
* Python floats are embedded as rationals (`ℚ`); `round(x, 1)` becomes
  `round1`, round-half-to-even at one decimal place;
* the insertion-ordered Python `dict` used for `dist_counts` becomes an
  association list updated in place by `tally`;
* raising Python code becomes `Except`-valued Lean code; indexing such as
  `preds[i]` that can raise `IndexError` is embedded with `List.get?` and an
  explicit error on `none`.
-/

namespace CommitAnalysis

instance {e a : Type} [DecidableEq e] [DecidableEq a] : DecidableEq (Except e a) := fun x y =>
  match x, y with
  | Except.ok u, Except.ok v =>
    match decEq u v with
    | isTrue h => isTrue (congrArg Except.ok h)
    | isFalse h => isFalse fun hh => h (Except.ok.inj hh)
  | Except.ok _, Except.error _ => isFalse fun hh => Except.noConfusion hh
  | Except.error _, Except.ok _ => isFalse fun hh => Except.noConfusion hh
  | Except.error u, Except.error v =>
    match decEq u v with
    | isTrue h => isTrue (congrArg Except.error h)
    | isFalse h => isFalse fun hh => h (Except.error.inj hh)

/-- Embedding of the Python builtin `max` over a non-empty sequence of floats:
`none` on the empty sequence (where Python raises `ValueError`). -/
def listMax : List ℚ → Option ℚ
  | [] => none
  | x :: xs => some (xs.foldl (fun a b => if a ≤ b then b else a) x)

/-- Errors that `predict_comments` can raise.  `modelsNotLoaded` is the
`RuntimeError("Models not loaded on server")` from main.py line 132; `other`
covers any exception propagating out of `transform`, `predict`, or the
row-building loop. -/
inductive PredictError where
  | modelsNotLoaded
  | other (msg : String)
deriving Repr, DecidableEq

/-- Embedding of the loaded TF-IDF vectorizer: `transform` maps a batch of
raw comment strings to a feature matrix (one row per input), and may raise. -/
structure Vectorizer where
  transform : List String → Except String (List (List ℚ))

/-- Embedding of the loaded classifier.  `name` is the runtime class name
(`MODEL.__class__.__name__`).  `predict` maps a feature matrix to one
predicted label code per row and may raise.  `predict_proba` returns the
per-row class-probability matrix, or `none` when the method is absent or the
call raised (the `try/except` in the source collapses both to `probs = None`). -/
structure Model where
  name : String
  predict : List (List ℚ) → Except String (List Int)
  predict_proba : List (List ℚ) → Option (List (List ℚ))

/-- The process-wide artifacts of main.py lines 43-45: any subset may be
unset after the best-effort `load_models()`.  The label-encoder call
`inverse_transform([label])[0]` is embedded as a function from a label code
to `Except Unit String`: an `error` models the decode raising (or returning
nothing to index). -/
structure Env where
  VECTORIZER : Option Vectorizer
  MODEL : Option Model
  LABEL_ENCODER : Option (Int → Except Unit String)

/-- Per-comment result record (main.py lines 163-167). -/
structure PredictionResult where
  comment : String
  sentiment : String
  confidence : ℚ
deriving Repr, DecidableEq

/-- The `distribution` field of the batch summary (main.py line 181):
insertion-ordered maps from sentiment label to count and to percentage. -/
structure Distribution where
  counts : List (String × ℕ)
  percentages : List (String × ℚ)
deriving Repr, DecidableEq

/-- The value returned by a successful `predict_comments` call
(main.py lines 178-184). -/
structure BatchSummary where
  count : ℕ
  results : List PredictionResult
  distribution : Distribution
  average_confidence : ℚ
  model : Option String
deriving Repr, DecidableEq

/-- Round a rational half-to-even to an integer, the tie-breaking rule of
the Python builtin `round`. -/
def roundHalfEven (q : ℚ) : ℤ :=
  let f := Rat.floor q
  let r := q - (f : ℚ)
  if r < 1 / 2 then f
  else if 1 / 2 < r then f + 1
  else if f % 2 = 0 then f else f + 1

/-- Embedding of the Python call `round(x, 1)`: round to one decimal place,
half-to-even. -/
def round1 (q : ℚ) : ℚ :=
  (roundHalfEven (q * 10) : ℚ) / 10

/-- Embedding of `dist_counts[key] = dist_counts.get(key, 0) + 1` on an
insertion-ordered dict: bump the value at `k` in place, or append `(k, 1)`
if `k` is absent. -/
def tally (m : List (String × ℕ)) (k : String) : List (String × ℕ) :=
  match m with
  | [] => [(k, 1)]
  | (j, v) :: rest => if j = k then (j, v + 1) :: rest else (j, v) :: tally rest k

/-- Dict lookup with default (`d.get(k, default)`). -/
def lookupD {α : Type} (m : List (String × α)) (k : String) (d : α) : α :=
  match m with
  | [] => d
  | (j, v) :: rest => if j = k then v else lookupD rest k d

/-- Confidence for row `i` (main.py lines 147-152): `0.0` when `probs` is
`None`; otherwise `float(max(probs[i]))`, where `probs[i]` raises on an
out-of-range row and `max` raises on an empty row. -/
def confOf (probs : Option (List (List ℚ))) (i : ℕ) : Except PredictError ℚ :=
  match probs with
  | none => Except.ok 0
  | some ps =>
    match ps.get? i with
    | none => Except.error (PredictError.other "probability row index out of range")
    | some row =>
      match listMax row with
      | none => Except.error (PredictError.other "max of empty probability row")
      | some m => Except.ok m

/-- Sentiment for one row (main.py lines 154-161): if a label encoder is
present, try `inverse_transform`; on any exception fall back to
`str(label)`; with no encoder use `str(label)` directly. -/
def decodeLabel (le : Option (Int → Except Unit String)) (label : Int) : String :=
  match le with
  | none => toString label
  | some dec =>
    match dec label with
    | Except.ok s => s
    | Except.error _ => toString label

/-- One iteration of the `for i, text in enumerate(comments)` loop body
(main.py lines 145-167): read `preds[i]`, compute the confidence, decode the
label, and build the result record.  An exception from indexing or from the
probability row aborts the whole call. -/
def buildRow (le : Option (Int → Except Unit String))
    (probs : Option (List (List ℚ))) (preds : List Int)
    (i : ℕ) (text : String) : Except PredictError PredictionResult :=
  match preds.get? i with
  | none => Except.error (PredictError.other "prediction index out of range")
  | some label =>
    match confOf probs i with
    | Except.error e => Except.error e
    | Except.ok c =>
      Except.ok { comment := text, sentiment := decodeLabel le label, confidence := c }

/-- The whole `enumerate(comments)` loop: build the `results` list in input
order, starting at index `i`; the first raising row aborts the batch. -/
def buildRows (le : Option (Int → Except Unit String))
    (probs : Option (List (List ℚ))) (preds : List Int) :
    ℕ → List String → Except PredictError (List PredictionResult)
  | _, [] => Except.ok []
  | i, text :: rest =>
    match buildRow le probs preds i text with
    | Except.error e => Except.error e
    | Except.ok r =>
      match buildRows le probs preds (i + 1) rest with
      | Except.error e => Except.error e
      | Except.ok rs => Except.ok (r :: rs)

/-- Percentage of one label (main.py line 174): `round(v / total * 100, 1)`. -/
def pctOf (total : ℕ) (v : ℕ) : ℚ := round1 ((v : ℚ) / (total : ℚ) * 100)

/-- The aggregation step (main.py lines 169-184): label counts via the dict
bump, percentages `round(v / total * 100, 1)` per label, mean confidence
(`0.0` when the batch is empty), and the summary record. -/
def summarize (results : List PredictionResult) (modelName : Option String) :
    BatchSummary :=
  let dist_counts := results.foldl (fun m r => tally m r.sentiment) []
  let total := results.length
  let dist_percent := dist_counts.map fun p => (p.1, pctOf total p.2)
  let avg_conf := if total = 0 then 0 else (results.map (·.confidence)).sum / (total : ℚ)
  { count := total
    results := results
    distribution := { counts := dist_counts, percentages := dist_percent }
    average_confidence := avg_conf
    model := modelName }

/-- Embedding of `predict_comments` (main.py lines 126-184): refuse when
either artifact is unset, vectorize the whole batch, predict labels, attempt
probabilities (failure collapses to `none`), build per-row results, and
aggregate.  The `model` field is `MODEL.__class__.__name__` (the `MODEL is
not None` guard on line 183 is always true here, the precondition having
been checked on line 131). -/
def predict_comments (env : Env) (comments : List String) :
    Except PredictError BatchSummary :=
  match env.VECTORIZER, env.MODEL with
  | some vec, some mdl =>
    match vec.transform comments with
    | Except.error e => Except.error (PredictError.other e)
    | Except.ok X =>
      match mdl.predict X with
      | Except.error e => Except.error (PredictError.other e)
      | Except.ok preds =>
        match buildRows env.LABEL_ENCODER (mdl.predict_proba X) preds 0 comments with
        | Except.error e => Except.error e
        | Except.ok results => Except.ok (summarize results (some mdl.name))
  | _, _ => Except.error PredictError.modelsNotLoaded

/-- What the `/analyze/comments/batch` endpoint returns (main.py lines
187-197): the bare `{count: 0, results: []}` short-circuit for an empty
payload, a full summary on success, or an HTTP 500 carrying the message of
the exception. -/
inductive BatchOut where
  | shortCircuit
  | full (s : BatchSummary)
  | httpError (status : ℕ) (detail : String)
deriving Repr, DecidableEq

/-- Message string of an exception, as `str(e)` seen by the handler. -/
def PredictError.msg : PredictError → String
  | PredictError.modelsNotLoaded => "Models not loaded on server"
  | PredictError.other m => m

/-- Embedding of `analyze_comments_batch` (main.py lines 187-197): empty
payload short-circuits before calling the pipeline; otherwise run
`predict_comments` and map any exception to a 500 response. -/
def analyze_comments_batch (env : Env) (comments : List String) : BatchOut :=
  if comments.isEmpty then BatchOut.shortCircuit
  else
    match predict_comments env comments with
    | Except.ok out => BatchOut.full out
    | Except.error e => BatchOut.httpError 500 e.msg

/-! Helper lemmas: projections of `summarize`, inversion and construction
principles for the row-building loop and for `predict_comments`. -/

theorem summarize_results (rs : List PredictionResult) (nm : Option String) :
    (summarize rs nm).results = rs := rfl

theorem summarize_count (rs : List PredictionResult) (nm : Option String) :
    (summarize rs nm).count = rs.length := rfl

theorem summarize_counts (rs : List PredictionResult) (nm : Option String) :
    (summarize rs nm).distribution.counts =
      rs.foldl (fun m r => tally m r.sentiment) [] := rfl

theorem summarize_percentages (rs : List PredictionResult) (nm : Option String) :
    (summarize rs nm).distribution.percentages =
      (rs.foldl (fun m r => tally m r.sentiment) []).map
        (fun p => (p.1, pctOf rs.length p.2)) := rfl

theorem summarize_avg (rs : List PredictionResult) (nm : Option String) :
    (summarize rs nm).average_confidence =
      (if rs.length = 0 then 0 else (rs.map (·.confidence)).sum / (rs.length : ℚ)) := rfl

theorem buildRow_ok_inv {le : Option (Int → Except Unit String)}
    {probs : Option (List (List ℚ))} {preds : List Int} {i : ℕ} {t : String}
    {r : PredictionResult}
    (h : buildRow le probs preds i t = Except.ok r) :
    ∃ lab q, preds.get? i = some lab ∧ confOf probs i = Except.ok q ∧
      r = { comment := t, sentiment := decodeLabel le lab, confidence := q } := by
  unfold buildRow at h
  split at h
  · exact absurd h (by simp)
  · rename_i lab hp
    split at h
    · exact absurd h (by simp)
    · rename_i q hc
      exact ⟨lab, q, hp, hc, (Except.ok.inj h).symm⟩

theorem buildRow_ok (le : Option (Int → Except Unit String))
    (probs : Option (List (List ℚ))) (preds : List Int) (i : ℕ) (t : String)
    {lab : Int} {q : ℚ}
    (hp : preds.get? i = some lab) (hc : confOf probs i = Except.ok q) :
    buildRow le probs preds i t =
      Except.ok { comment := t, sentiment := decodeLabel le lab, confidence := q } := by
  unfold buildRow
  rw [hp, hc]

theorem buildRows_ok_inv (le : Option (Int → Except Unit String))
    (probs : Option (List (List ℚ))) (preds : List Int) :
    ∀ (cs : List String) (i : ℕ) (rs : List PredictionResult),
      buildRows le probs preds i cs = Except.ok rs →
      rs.length = cs.length ∧
      ∀ j t, cs.get? j = some t →
        ∃ lab q, preds.get? (i + j) = some lab ∧ confOf probs (i + j) = Except.ok q ∧
          rs.get? j = some { comment := t, sentiment := decodeLabel le lab, confidence := q } := by
  intro cs
  induction cs with
  | nil =>
    intro i rs h
    simp only [buildRows] at h
    cases h
    exact ⟨rfl, by intro j t ht; simp at ht⟩
  | cons t rest ih =>
    intro i rs h
    simp only [buildRows] at h
    cases hb : buildRow le probs preds i t with
    | error e => rw [hb] at h; exact absurd h (by simp)
    | ok r =>
      rw [hb] at h
      cases hrest : buildRows le probs preds (i + 1) rest with
      | error e => rw [hrest] at h; exact absurd h (by simp)
      | ok rs2 =>
        rw [hrest] at h
        cases h
        obtain ⟨hlen, hidx⟩ := ih (i + 1) rs2 hrest
        refine ⟨by simp [hlen], ?_⟩
        intro j u hu
        cases j with
        | zero =>
          obtain ⟨lab, q, hp, hc, hr⟩ := buildRow_ok_inv hb
          cases hu
          exact ⟨lab, q, by simpa using hp, by simpa using hc, by simp [hr]⟩
        | succ j =>
          obtain ⟨lab, q, hp, hc, hr⟩ := hidx j u (by simpa using hu)
          have harith : i + (j + 1) = i + 1 + j := by omega
          exact ⟨lab, q, by rw [harith]; exact hp, by rw [harith]; exact hc, by simpa using hr⟩

theorem buildRows_ok (le : Option (Int → Except Unit String))
    (probs : Option (List (List ℚ))) (preds : List Int) :
    ∀ (cs : List String) (i : ℕ),
      (∀ j, j < cs.length →
        ∃ lab q, preds.get? (i + j) = some lab ∧ confOf probs (i + j) = Except.ok q) →
      ∃ rs, buildRows le probs preds i cs = Except.ok rs := by
  intro cs
  induction cs with
  | nil => intro i _; exact ⟨[], rfl⟩
  | cons t rest ih =>
    intro i hcond
    obtain ⟨lab, q, hp, hc⟩ := hcond 0 (by simp)
    obtain ⟨rs2, hrs2⟩ := ih (i + 1) (fun j hj => by
      have hh := hcond (j + 1) (by simpa using Nat.succ_lt_succ hj)
      have harith : i + (j + 1) = i + 1 + j := by omega
      rw [harith] at hh
      exact hh)
    refine ⟨{ comment := t, sentiment := decodeLabel le lab, confidence := q } :: rs2, ?_⟩
    simp only [buildRows]
    rw [buildRow_ok le probs preds i t (by simpa using hp) (by simpa using hc), hrs2]

theorem predict_comments_ok_inv {env : Env} {comments : List String} {s : BatchSummary}
    (h : predict_comments env comments = Except.ok s) :
    ∃ vec mdl X preds rs,
      env.VECTORIZER = some vec ∧ env.MODEL = some mdl ∧
      vec.transform comments = Except.ok X ∧
      mdl.predict X = Except.ok preds ∧
      buildRows env.LABEL_ENCODER (mdl.predict_proba X) preds 0 comments = Except.ok rs ∧
      s = summarize rs (some mdl.name) := by
  unfold predict_comments at h
  split at h
  · rename_i vec mdl hveq hmeq
    split at h
    · exact absurd h (by simp)
    · rename_i X hX
      split at h
      · exact absurd h (by simp)
      · rename_i preds hpred
        split at h
        · exact absurd h (by simp)
        · rename_i rs hrs
          exact ⟨vec, mdl, X, preds, rs, hveq, hmeq, hX, hpred, hrs, (Except.ok.inj h).symm⟩
  · exact absurd h (by simp)

theorem predict_comments_ok {env : Env} {comments : List String}
    {vec : Vectorizer} {mdl : Model} {X : List (List ℚ)} {preds : List Int}
    {rs : List PredictionResult}
    (hv : env.VECTORIZER = some vec) (hm : env.MODEL = some mdl)
    (hX : vec.transform comments = Except.ok X)
    (hpred : mdl.predict X = Except.ok preds)
    (hrs : buildRows env.LABEL_ENCODER (mdl.predict_proba X) preds 0 comments = Except.ok rs) :
    predict_comments env comments = Except.ok (summarize rs (some mdl.name)) := by
  unfold predict_comments
  rw [hv, hm]
  simp only [hX, hpred, hrs]

/-! Counting lemmas for the insertion-ordered dict. -/

theorem tally_valsSum (m : List (String × ℕ)) (k : String) :
    ((tally m k).map Prod.snd).sum = ((m.map Prod.snd).sum) + 1 := by
  induction m with
  | nil => simp [tally]
  | cons p rest ih =>
    obtain ⟨j, v⟩ := p
    by_cases hj : j = k
    · simp [tally, hj]
      omega
    · simp [tally, hj, ih]
      omega

theorem tally_lookupD (m : List (String × ℕ)) (k j : String) :
    lookupD (tally m k) j 0 = lookupD m j 0 + (if j = k then 1 else 0) := by
  induction m with
  | nil =>
    simp only [tally, lookupD]
    by_cases hk : k = j
    · subst hk
      simp
    · rw [if_neg hk, if_neg (fun hh : j = k => hk hh.symm)]
  | cons p rest ih =>
    obtain ⟨a, v⟩ := p
    simp only [tally]
    by_cases ha : a = k
    · subst ha
      rw [if_pos rfl]
      simp only [lookupD]
      by_cases haj : a = j
      · subst haj
        simp
      · rw [if_neg haj, if_neg haj, if_neg (fun hh : j = a => haj hh.symm)]
        omega
    · rw [if_neg ha]
      simp only [lookupD]
      by_cases haj : a = j
      · subst haj
        have hjk : ¬ a = k := ha
        rw [if_pos rfl, if_pos rfl, if_neg hjk]
        omega
      · rw [if_neg haj, if_neg haj, ih]

theorem foldl_tally_valsSum (rs : List PredictionResult) :
    ∀ m, (((rs.foldl (fun m r => tally m r.sentiment) m)).map Prod.snd).sum
      = ((m.map Prod.snd).sum) + rs.length := by
  induction rs with
  | nil => intro m; simp
  | cons r rest ih =>
    intro m
    rw [List.foldl_cons, ih, tally_valsSum]
    simp
    omega

theorem foldl_tally_lookupD (rs : List PredictionResult) :
    ∀ m lab, lookupD (rs.foldl (fun m r => tally m r.sentiment) m) lab 0
      = lookupD m lab 0 + rs.countP (fun r => r.sentiment == lab) := by
  induction rs with
  | nil => intro m lab; simp
  | cons r rest ih =>
    intro m lab
    rw [List.foldl_cons, ih, tally_lookupD, List.countP_cons]
    have hsame : (if lab = r.sentiment then (1:ℕ) else 0)
        = (if (r.sentiment == lab) = true then 1 else 0) := by
      by_cases hh : lab = r.sentiment
      · subst hh
        simp
      · have hne2 : ¬ ((r.sentiment == lab) = true) := by
          simp only [beq_iff_eq]
          exact fun he => hh he.symm
        rw [if_neg hh, if_neg hne2]
    rw [hsame]
    omega

theorem lookupD_map {α β : Type} (f : α → β) (d : α) (d2 : β) :
    ∀ (m : List (String × α)) (k : String), k ∈ m.map Prod.fst →
      lookupD (m.map fun p => (p.1, f p.2)) k d2 = f (lookupD m k d) := by
  intro m
  induction m with
  | nil => intro k hk; simp at hk
  | cons p rest ih =>
    intro k hk
    obtain ⟨j, v⟩ := p
    by_cases hj : j = k
    · simp [lookupD, hj]
    · have hk2 : k ∈ rest.map Prod.fst := by
        simp only [List.map_cons] at hk
        rcases List.mem_cons.mp hk with h1 | h2
        · exact absurd h1.symm hj
        · exact h2
      simp [lookupD, hj, ih k hk2]

theorem map_keys {α β : Type} (f : α → β) (m : List (String × α)) :
    ((m.map fun p => (p.1, f p.2)).map Prod.fst) = m.map Prod.fst := by
  induction m with
  | nil => rfl
  | cons p rest ih => simp [ih]

/-- C1: for every non-empty batch on which `predict_comments` succeeds (both
artifacts loaded, transform and predict succeeding), the results list of
the summary has exactly one entry per input comment, in input order, and
the `comment` field of the i-th entry is the i-th input string. -/
theorem C1_results_length_and_order (env : Env) (comments : List String)
    (s : BatchSummary) (_hne : comments ≠ [])
    (h : predict_comments env comments = Except.ok s) :
    s.results.length = comments.length ∧
    ∀ i, (s.results.get? i).map (·.comment) = comments.get? i := by
  obtain ⟨vec, mdl, X, preds, rs, hv, hm, hX, hpred, hrs, hs⟩ := predict_comments_ok_inv h
  subst hs
  obtain ⟨hlen, hidx⟩ :=
    buildRows_ok_inv env.LABEL_ENCODER (mdl.predict_proba X) preds comments 0 rs hrs
  rw [summarize_results]
  refine ⟨hlen, ?_⟩
  intro i
  cases hc : comments.get? i with
  | none =>
    have hle : comments.length ≤ i := by
      by_contra hlt
      rw [List.get?_eq_get (Nat.lt_of_not_le hlt)] at hc
      exact Option.noConfusion hc
    rw [List.get?_len_le (hlen ▸ hle)]
    rfl
  | some t =>
    obtain ⟨lab, q, hp2, hc2, hr⟩ := hidx i t hc
    rw [hr]
    rfl

/-- C2: every summary returned by a successful `predict_comments` call
satisfies `count == len(results) == sum(distribution.counts.values())`, and
`distribution.counts` maps each sentiment label to the number of result
entries carrying that label. -/
theorem C2_count_invariant (env : Env) (comments : List String) (s : BatchSummary)
    (h : predict_comments env comments = Except.ok s) :
    s.count = s.results.length ∧
    s.count = ((s.distribution.counts.map Prod.snd).sum) ∧
    ∀ lab, lookupD s.distribution.counts lab 0
      = s.results.countP (fun r => r.sentiment == lab) := by
  obtain ⟨vec, mdl, X, preds, rs, hv, hm, hX, hpred, hrs, hs⟩ := predict_comments_ok_inv h
  subst hs
  refine ⟨rfl, ?_, ?_⟩
  · rw [summarize_count, summarize_counts, foldl_tally_valsSum]
    simp
  · intro lab
    rw [summarize_counts, summarize_results, foldl_tally_lookupD]
    simp [lookupD]

/-- C4: in every successfully returned summary, the percentage map has
exactly the keys of the count map, and each percentage equals
`round(counts[label] / count * 100, 1)`. -/
theorem C4_percentages_formula (env : Env) (comments : List String) (s : BatchSummary)
    (h : predict_comments env comments = Except.ok s) :
    s.distribution.percentages.map Prod.fst = s.distribution.counts.map Prod.fst ∧
    ∀ lab, lab ∈ s.distribution.counts.map Prod.fst →
      lookupD s.distribution.percentages lab 0
        = round1 ((↑(lookupD s.distribution.counts lab 0) : ℚ) / (s.count : ℚ) * 100) := by
  obtain ⟨vec, mdl, X, preds, rs, hv, hm, hX, hpred, hrs, hs⟩ := predict_comments_ok_inv h
  subst hs
  constructor
  · rw [summarize_percentages, summarize_counts, map_keys]
  · intro lab hlab
    rw [summarize_counts] at hlab
    rw [summarize_percentages, summarize_counts, summarize_count]
    exact lookupD_map (pctOf rs.length) 0 0 _ lab hlab

/-- C5: in every successfully returned summary, `average_confidence` is the
arithmetic mean of the per-result confidences, and `0.0` when `count == 0`. -/
theorem C5_average_confidence (env : Env) (comments : List String) (s : BatchSummary)
    (h : predict_comments env comments = Except.ok s) :
    (s.count = 0 → s.average_confidence = 0) ∧
    (s.count ≠ 0 → s.average_confidence
       = (s.results.map (·.confidence)).sum / (s.count : ℚ)) := by
  obtain ⟨vec, mdl, X, preds, rs, hv, hm, hX, hpred, hrs, hs⟩ := predict_comments_ok_inv h
  subst hs
  rw [summarize_count, summarize_avg, summarize_results]
  constructor
  · intro h0
    simp [h0]
  · intro h0
    simp [h0]

/-- C3: with the vectorizer or the classifier unset, `predict_comments`
fails with the models-not-loaded error and returns no summary (and hence no
partial results). -/
theorem C3_models_not_loaded (env : Env) (comments : List String)
    (h : env.VECTORIZER = none ∨ env.MODEL = none) :
    predict_comments env comments = Except.error PredictError.modelsNotLoaded := by
  unfold predict_comments
  rcases h with h1 | h1
  · rw [h1]
  · rw [h1]
    cases env.VECTORIZER <;> rfl

/-- C6: when the classifier exposes no probability output (method absent or
raising, both embedded as `predict_proba X = none`), `predict_comments`
still succeeds and the confidence of every result is exactly `0.0`. -/
theorem C6_no_proba_confidence_zero (env : Env) (comments : List String)
    (vec : Vectorizer) (mdl : Model) (X : List (List ℚ)) (preds : List Int)
    (hv : env.VECTORIZER = some vec) (hm : env.MODEL = some mdl)
    (hX : vec.transform comments = Except.ok X)
    (hpred : mdl.predict X = Except.ok preds)
    (hlen : comments.length ≤ preds.length)
    (hnp : mdl.predict_proba X = none) :
    ∃ s, predict_comments env comments = Except.ok s ∧
      ∀ r ∈ s.results, r.confidence = 0 := by
  obtain ⟨rs, hrs⟩ := buildRows_ok env.LABEL_ENCODER (mdl.predict_proba X) preds comments 0
    (fun j hj => by
      have hjp : 0 + j < preds.length := by omega
      exact ⟨preds.get ⟨0 + j, hjp⟩, 0, List.get?_eq_get hjp, by rw [hnp]; rfl⟩)
  refine ⟨summarize rs (some mdl.name), predict_comments_ok hv hm hX hpred hrs, ?_⟩
  rw [summarize_results]
  intro r hr
  obtain ⟨j, hj⟩ := List.mem_iff_get?.mp hr
  obtain ⟨hlen2, hidx⟩ :=
    buildRows_ok_inv env.LABEL_ENCODER (mdl.predict_proba X) preds comments 0 rs hrs
  have hjlt : j < comments.length := by
    rw [← hlen2]
    by_contra hc
    rw [List.get?_len_le (Nat.le_of_not_lt hc)] at hj
    exact Option.noConfusion hj
  obtain ⟨t, ht⟩ : ∃ t, comments.get? j = some t :=
    ⟨comments.get ⟨j, hjlt⟩, List.get?_eq_get hjlt⟩
  obtain ⟨lab, q, hp2, hc2, hr2⟩ := hidx j t ht
  rw [hnp] at hc2
  have hq : q = 0 := by
    have h00 : (Except.ok 0 : Except PredictError ℚ) = Except.ok q := hc2
    exact (Except.ok.inj h00).symm
  rw [hj] at hr2
  injection hr2 with he
  rw [he]
  exact hq

/-- C7: with a label decoder present, a decoder that raises on the
predicted code of some row only makes the sentiment of that row fall back
to the string form of the raw label; rows whose codes decode normally get
the decoded name, and the
batch call still succeeds (provided the rest of the pipeline is healthy). -/
theorem C7_decoder_failure_localized (env : Env) (comments : List String)
    (vec : Vectorizer) (mdl : Model) (X : List (List ℚ)) (preds : List Int)
    (dec : Int → Except Unit String)
    (hv : env.VECTORIZER = some vec) (hm : env.MODEL = some mdl)
    (hle : env.LABEL_ENCODER = some dec)
    (hX : vec.transform comments = Except.ok X)
    (hpred : mdl.predict X = Except.ok preds)
    (hlen : comments.length ≤ preds.length)
    (hconf : ∀ j, j < comments.length →
      ∃ q, confOf (mdl.predict_proba X) j = Except.ok q) :
    ∃ s, predict_comments env comments = Except.ok s ∧
      s.results.length = comments.length ∧
      ∀ j lab, j < comments.length → preds.get? j = some lab →
        ((∀ u, dec lab = Except.error u →
           (s.results.get? j).map (·.sentiment) = some (toString lab)) ∧
         (∀ nm, dec lab = Except.ok nm →
           (s.results.get? j).map (·.sentiment) = some nm)) := by
  obtain ⟨rs, hrs⟩ := buildRows_ok env.LABEL_ENCODER (mdl.predict_proba X) preds comments 0
    (fun j hj => by
      have hjp : 0 + j < preds.length := by omega
      obtain ⟨q, hq⟩ := hconf j hj
      exact ⟨preds.get ⟨0 + j, hjp⟩, q, List.get?_eq_get hjp, by simpa using hq⟩)
  obtain ⟨hlen2, hidx⟩ :=
    buildRows_ok_inv env.LABEL_ENCODER (mdl.predict_proba X) preds comments 0 rs hrs
  refine ⟨summarize rs (some mdl.name), predict_comments_ok hv hm hX hpred hrs,
    by rw [summarize_results]; exact hlen2, ?_⟩
  intro j lab hjlt hplab
  obtain ⟨t, ht⟩ : ∃ t, comments.get? j = some t :=
    ⟨comments.get ⟨j, hjlt⟩, List.get?_eq_get hjlt⟩
  obtain ⟨lab2, q, hp2, hc2, hr2⟩ := hidx j t ht
  rw [Nat.zero_add] at hp2
  rw [hp2] at hplab
  have hlab : lab2 = lab := Option.some.inj hplab
  subst hlab
  rw [summarize_results]
  constructor
  · intro u hu
    rw [hr2]
    simp [decodeLabel, hle, hu]
  · intro nm hnm
    rw [hr2]
    simp [decodeLabel, hle, hnm]

/-- C8: when the classifier supports probability output, the confidence of
each row equals the maximum value of the class-probability distribution of
that row (the probability the classifier reports for its chosen label). -/
theorem C8_confidence_is_row_max (env : Env) (comments : List String)
    (s : BatchSummary) (vec : Vectorizer) (mdl : Model) (X : List (List ℚ))
    (preds : List Int) (ps : List (List ℚ))
    (hv : env.VECTORIZER = some vec) (hm : env.MODEL = some mdl)
    (hX : vec.transform comments = Except.ok X)
    (hpred : mdl.predict X = Except.ok preds)
    (hproba : mdl.predict_proba X = some ps)
    (h : predict_comments env comments = Except.ok s) :
    ∀ i row, i < comments.length → ps.get? i = some row →
      (s.results.get? i).map (·.confidence) = listMax row := by
  obtain ⟨vec2, mdl2, X2, preds2, rs, hv2, hm2, hX2, hpred2, hrs, hs⟩ :=
    predict_comments_ok_inv h
  rw [hv] at hv2
  injection hv2 with e1
  subst e1
  rw [hm] at hm2
  injection hm2 with e2
  subst e2
  rw [hX] at hX2
  injection hX2 with e3
  subst e3
  rw [hpred] at hpred2
  injection hpred2 with e4
  subst e4
  obtain ⟨hlen2, hidx⟩ :=
    buildRows_ok_inv env.LABEL_ENCODER (mdl.predict_proba X) preds comments 0 rs hrs
  intro i row hilt hrow
  obtain ⟨t, ht⟩ : ∃ t, comments.get? i = some t :=
    ⟨comments.get ⟨i, hilt⟩, List.get?_eq_get hilt⟩
  obtain ⟨lab, q, hp2, hc2, hr2⟩ := hidx i t ht
  rw [Nat.zero_add, hproba] at hc2
  have hmax : listMax row = some q := by
    simp only [confOf, hrow] at hc2
    split at hc2
    · exact Except.noConfusion hc2
    · rename_i m hm2
      rw [hm2]
      exact congrArg some (Except.ok.inj hc2)
  rw [hs, summarize_results, hr2]
  exact hmax.symm

/-- C9: when no label decoder is loaded, the sentiment of each row is the
string form of the raw predicted label, used as-is. -/
theorem C9_no_decoder_raw_label (env : Env) (comments : List String)
    (s : BatchSummary) (vec : Vectorizer) (mdl : Model) (X : List (List ℚ))
    (preds : List Int)
    (hv : env.VECTORIZER = some vec) (hm : env.MODEL = some mdl)
    (hle : env.LABEL_ENCODER = none)
    (hX : vec.transform comments = Except.ok X)
    (hpred : mdl.predict X = Except.ok preds)
    (h : predict_comments env comments = Except.ok s) :
    ∀ i lab, i < comments.length → preds.get? i = some lab →
      (s.results.get? i).map (·.sentiment) = some (toString lab) := by
  obtain ⟨vec2, mdl2, X2, preds2, rs, hv2, hm2, hX2, hpred2, hrs, hs⟩ :=
    predict_comments_ok_inv h
  rw [hv] at hv2
  injection hv2 with e1
  subst e1
  rw [hm] at hm2
  injection hm2 with e2
  subst e2
  rw [hX] at hX2
  injection hX2 with e3
  subst e3
  rw [hpred] at hpred2
  injection hpred2 with e4
  subst e4
  obtain ⟨hlen2, hidx⟩ :=
    buildRows_ok_inv env.LABEL_ENCODER (mdl.predict_proba X) preds comments 0 rs hrs
  intro i lab hilt hplab
  obtain ⟨t, ht⟩ : ∃ t, comments.get? i = some t :=
    ⟨comments.get ⟨i, hilt⟩, List.get?_eq_get hilt⟩
  obtain ⟨lab2, q, hp2, hc2, hr2⟩ := hidx i t ht
  rw [Nat.zero_add] at hp2
  rw [hp2] at hplab
  have hlab : lab2 = lab := Option.some.inj hplab
  subst hlab
  rw [hs, summarize_results, hr2]
  simp [decodeLabel, hle]

/-- C10: for an empty comments list, the batch endpoint short-circuits to
the bare `{count: 0, results: []}` response for every environment — in
particular even when the pipeline itself would fail — so the prediction
pipeline is never invoked and no distribution, confidence, or model field is
produced. -/
theorem C10_empty_short_circuit (env : Env) :
    analyze_comments_batch env [] = BatchOut.shortCircuit := rfl

/-! Concrete environments exercising the pipeline, used by the witnesses. -/

/-- A vectorizer for the witnesses: two comments become two feature rows. -/
def vecW : Vectorizer := ⟨fun _ => Except.ok [[1], [2]]⟩

/-- A classifier for the witnesses: labels `0` and `1`, a unit probability
row for the first comment and `3/4` for the second. -/
def mdlW : Model :=
  { name := "RandomForestClassifier"
    predict := fun _ => Except.ok [0, 1]
    predict_proba := fun _ => some [[1], [3/4]] }

/-- Witness environment with both artifacts loaded and no label encoder. -/
def envW : Env := ⟨some vecW, some mdlW, none⟩

/-- The witness batch. -/
def csW : List String := ["great work!", "meh"]

/-- The rows `predict_comments` builds for `csW` under `envW`. -/
def rowsW : List PredictionResult :=
  [{ comment := "great work!", sentiment := toString (0 : Int), confidence := 1 },
   { comment := "meh", sentiment := toString (1 : Int), confidence := 3/4 }]

/-- The summary `predict_comments` returns for `csW` under `envW`. -/
def sumW : BatchSummary := summarize rowsW (some "RandomForestClassifier")

theorem predW : predict_comments envW csW = Except.ok sumW := rfl

/-- A classifier without probability support. -/
def mdlNoProba : Model :=
  { name := "RandomForestClassifier"
    predict := fun _ => Except.ok [0, 1]
    predict_proba := fun _ => none }

/-- Witness environment whose classifier has no probability output. -/
def envNoProba : Env := ⟨some vecW, some mdlNoProba, none⟩

/-- A label decoder raising on code `0` and decoding code `1`. -/
def decW : Int → Except Unit String :=
  fun lab => if lab = 0 then Except.error () else Except.ok "positive"

/-- Witness environment with the partially raising decoder `decW`. -/
def envDecW : Env := ⟨some vecW, some mdlNoProba, some decW⟩

/-- Witness environment with no artifacts loaded at all. -/
def envNone : Env := ⟨none, none, none⟩

/-- C1 witness: the C1 theorem applied to the concrete two-comment batch. -/
theorem C1_results_length_and_order_witness :
    sumW.results.length = csW.length ∧
    ∀ i, ((sumW.results.get? i).map (·.comment)) = csW.get? i :=
  C1_results_length_and_order envW csW sumW (by simp [csW]) predW

/-- C2 witness: the count invariant on the concrete summary. -/
theorem C2_count_invariant_witness :
    sumW.count = sumW.results.length ∧
    sumW.count = ((sumW.distribution.counts.map Prod.snd).sum) ∧
    ∀ lab, lookupD sumW.distribution.counts lab 0
      = sumW.results.countP (fun r => r.sentiment == lab) :=
  C2_count_invariant envW csW sumW predW

/-- C3 witness: an environment with no artifacts refuses to predict. -/
theorem C3_models_not_loaded_witness :
    predict_comments envNone ["great work!"] = Except.error PredictError.modelsNotLoaded :=
  C3_models_not_loaded envNone ["great work!"] (Or.inl rfl)

/-- C4 witness: the percentage formula on the concrete summary. -/
theorem C4_percentages_formula_witness :
    sumW.distribution.percentages.map Prod.fst = sumW.distribution.counts.map Prod.fst ∧
    ∀ lab, lab ∈ sumW.distribution.counts.map Prod.fst →
      lookupD sumW.distribution.percentages lab 0
        = round1 ((↑(lookupD sumW.distribution.counts lab 0) : ℚ) / (sumW.count : ℚ) * 100) :=
  C4_percentages_formula envW csW sumW predW

/-- C5 witness: the mean-confidence clause on the concrete summary. -/
theorem C5_average_confidence_witness :
    (sumW.count = 0 → sumW.average_confidence = 0) ∧
    (sumW.count ≠ 0 → sumW.average_confidence
       = (sumW.results.map (·.confidence)).sum / (sumW.count : ℚ)) :=
  C5_average_confidence envW csW sumW predW

/-- C6 witness: a probability-free classifier still yields a summary, with
all confidences zero. -/
theorem C6_no_proba_confidence_zero_witness :
    ∃ s, predict_comments envNoProba csW = Except.ok s ∧
      ∀ r ∈ s.results, r.confidence = 0 :=
  C6_no_proba_confidence_zero envNoProba csW vecW mdlNoProba [[1], [2]] [0, 1]
    rfl rfl rfl rfl (by decide) rfl

/-- C7 witness: a decoder raising on label `0` only affects that row. -/
theorem C7_decoder_failure_localized_witness :
    ∃ s, predict_comments envDecW csW = Except.ok s ∧
      s.results.length = csW.length ∧
      ∀ j lab, j < csW.length → ([0, 1] : List Int).get? j = some lab →
        ((∀ u, decW lab = Except.error u →
           (s.results.get? j).map (·.sentiment) = some (toString lab)) ∧
         (∀ nm, decW lab = Except.ok nm →
           (s.results.get? j).map (·.sentiment) = some nm)) :=
  C7_decoder_failure_localized envDecW csW vecW mdlNoProba [[1], [2]] [0, 1] decW
    rfl rfl rfl rfl rfl (by decide) (fun j hj => ⟨0, rfl⟩)

/-- C8 witness: with probability support, the confidence of the second row
is the maximum of its probability row. -/
theorem C8_confidence_is_row_max_witness :
    (sumW.results.get? 1).map (·.confidence) = listMax [3/4] :=
  C8_confidence_is_row_max envW csW sumW vecW mdlW [[1], [2]] [0, 1] [[1], [3/4]]
    rfl rfl rfl rfl rfl predW 1 [3/4] (by decide) rfl

/-- C9 witness: with no decoder, the sentiment of the first row is the raw
label rendered as a string. -/
theorem C9_no_decoder_raw_label_witness :
    (sumW.results.get? 0).map (·.sentiment) = some (toString (0 : Int)) :=
  C9_no_decoder_raw_label envW csW sumW vecW mdlW [[1], [2]] [0, 1]
    rfl rfl rfl rfl rfl predW 0 0 (by decide) rfl

end CommitAnalysis
